import Mathlib

/-! XCSoar: waypoint selection dialog and switch state

A shallow embedding of `src/Dialogs/dlgWaypointSelect.cpp` (list construction,
single-letter name search, trailing-space trimming) and of
`src/NMEA/SwitchState.cpp` (`SwitchState::Reset`), with the properties of the
specification stated and proved over it.

Conventions of the embedding.
* `fixed` (the numeric type of XCSoar) is `Int`; only its order and sign are used.
* `TCHAR` is a character code (`Nat`); a C string is the run of codes before the first 0.
* `int` is `Int`, conversions from `size_t` wrap explicitly.
* An array read outside its bounds makes the function return `none`.
* File-level `static` variables of the dialog are the fields of `DialogGlobals`.
* Collaborators whose code is outside the translated files are the fields of `Env`.
-/

namespace XCSoar

/-! ## NMEA/SwitchState.cpp -/

/-- The enumeration `SwitchState::FlightMode`.  The translated file names only
`UNKNOWN`; every other enumerator of the header is represented by `other`. -/
inductive FlightMode where
  | UNKNOWN
  | other (code : Nat)
  deriving DecidableEq, Repr

/-- The fields assigned by `SwitchState::Reset`, in the order of the assignments. -/
structure SwitchState where
  airbrake_locked : Bool
  flap_positive : Bool
  flap_neutral : Bool
  flap_negative : Bool
  gear_extended : Bool
  acknowledge : Bool
  repeat_ : Bool
  speed_command : Bool
  user_switch_up : Bool
  user_switch_middle : Bool
  user_switch_down : Bool
  flight_mode : FlightMode
  deriving DecidableEq, Repr

/-- Method `SwitchState::Reset()`: twelve assignments, one per field (the C++ field
`repeat` is `repeat_` here, `repeat` being a keyword). -/
def SwitchState.Reset (s : SwitchState) : SwitchState :=
  let s := { s with airbrake_locked := false }
  let s := { s with flap_positive := false }
  let s := { s with flap_neutral := false }
  let s := { s with flap_negative := false }
  let s := { s with gear_extended := false }
  let s := { s with acknowledge := false }
  let s := { s with repeat_ := false }
  let s := { s with speed_command := false }
  let s := { s with user_switch_up := false }
  let s := { s with user_switch_middle := false }
  let s := { s with user_switch_down := false }
  { s with flight_mode := FlightMode.UNKNOWN }

/-! ## Dialogs/dlgWaypointSelect.cpp: data model -/

/-- The numeric type `fixed`. -/
abbrev fixed := Int

/-- Function `positive(x)` of `Math/fixed.hpp`. -/
def positive (x : fixed) : Bool := decide (0 < x)

/-- Function `negative(x)` of `Math/fixed.hpp`. -/
def negative (x : fixed) : Bool := decide (x < 0)

/-- An `Angle`, held as its native value.  `Angle::Degrees` and `Native` keep the
sign of the number they are given, which is all the dialog looks at. -/
structure Angle where
  value : fixed
  deriving DecidableEq, Repr

/-- Constructor `Angle::Degrees(x)`. -/
def Angle.Degrees (x : fixed) : Angle := ⟨x⟩

/-- Accessor `Angle::Native()`. -/
def Angle.Native (a : Angle) : fixed := a.value

/-- Constant `Angle::Zero()`. -/
def Angle.Zero : Angle := ⟨0⟩

/-- A `GeoPoint`. -/
structure GeoPoint where
  longitude : Angle
  latitude : Angle
  deriving DecidableEq, Repr

/-- A character code. -/
abbrev TCHAR := Nat

/-- The string terminator. -/
def NUL : TCHAR := 0

/-- The space character, `_T(' ')`. -/
def SPACE : TCHAR := 32

/-- A `Waypoint` of the repository: its id, name and location. -/
structure Waypoint where
  id : Nat
  name : List TCHAR
  location : GeoPoint
  deriving DecidableEq, Repr

/-- The enumeration `TypeFilter`, in the order of `type_filter_items`. -/
inductive TypeFilter where
  | ALL
  | AIRPORT
  | LANDABLE
  | TURNPOINT
  | START
  | FINISH
  | FAI_TRIANGLE_LEFT
  | FAI_TRIANGLE_RIGHT
  | FILE_1
  | FILE_2
  | LAST_USED
  deriving DecidableEq, Repr

/-- The fields of `WaypointFilter` written by `ToFilter`. -/
structure WaypointFilter where
  name : List TCHAR
  distance : fixed
  direction : Angle
  type_index : TypeFilter
  deriving DecidableEq, Repr

/-- A `WaypointListItem`: the waypoint it refers to.  Its vector is derived from
the waypoint and the observer location on demand (`GetVector(location)`). -/
structure WaypointListItem where
  waypoint : Waypoint
  deriving DecidableEq, Repr

/-- A `WaypointList`. -/
abbrev WaypointList := List WaypointListItem

/-- The repository `Waypoints`, as the sequence of its waypoints in visitation order. -/
abbrev Waypoints := List Waypoint

/-- A `WaypointIDList` (`std::list<unsigned>`), oldest id first. -/
abbrev WaypointIDList := List Nat

/-- Collaborators of the dialog whose code is not part of the translated files. -/
structure Env where
  /-- Function `Units::ToSysDistance`, for the configured distance unit. -/
  ToSysDistance : fixed → fixed
  /-- Predicate `WaypointFilter::Matches(waypoint, location, validator)`; the validator is
  built from `ordered_task` and `ordered_task_index`, which a query never changes. -/
  Matches : WaypointFilter → GeoPoint → Waypoint → Bool
  /-- The distance of `WaypointListItem::GetVector(location)`. -/
  Distance : GeoPoint → Waypoint → fixed

/-- Method `Waypoints::size()`. -/
def Waypoints.size (src : Waypoints) : Nat := src.length

/-- Modelled from the spec: `Waypoints::LookupId`, whose code is in the waypoint
engine.  "Repository.LookupById(id) -> Waypoint?: returns an empty/absent result
for unknown ids": the waypoint of the repository carrying that id, if any. -/
def Waypoints.LookupId (waypoints : Waypoints) (id : Nat) : Option Waypoint :=
  waypoints.find? (fun w => w.id == id)

/-- Table `distance_filter_items`. -/
def distance_filter_items : List fixed :=
  [0, 25, 50, 75, 100, 150, 250, 500, 1000]

/-- Table `direction_filter_items`. -/
def direction_filter_items : List Int :=
  [-1, -1, 0, 30, 60, 90, 120, 150, 180, 210, 240, 270, 300, 330]

/-- Reading `table[i]` with an `int` index: `none` outside the array. -/
def tableAt {α : Type} (table : List α) (i : Int) : Option α :=
  if i < 0 then none else table.get? i.toNat

/-- Record `struct WaypointListDialogState`. -/
structure WaypointListDialogState where
  name : List TCHAR
  distance_index : Int
  direction_index : Int
  type_index : TypeFilter
  deriving DecidableEq, Repr

/-- Method `WaypointListDialogState::IsDefined`. -/
def WaypointListDialogState.IsDefined (state : WaypointListDialogState) : Bool :=
  !state.name.isEmpty || decide (state.distance_index > 0) ||
    decide (state.direction_index > 0) || decide (state.type_index ≠ TypeFilter.ALL)

/-- Method `WaypointListDialogState::ToFilter`; `none` when an index is outside its table. -/
def WaypointListDialogState.ToFilter (env : Env) (state : WaypointListDialogState)
    (heading : Angle) : Option WaypointFilter :=
  match tableAt distance_filter_items state.distance_index with
  | none => none
  | some d =>
    if state.direction_index ≠ 1 then
      match tableAt direction_filter_items state.direction_index with
      | none => none
      | some dir =>
        some { name := state.name, distance := env.ToSysDistance d,
               type_index := state.type_index, direction := Angle.Degrees dir }
    else
      some { name := state.name, distance := env.ToSysDistance d,
             type_index := state.type_index, direction := heading }

/-! ## Dialogs/dlgWaypointSelect.cpp: list construction -/

/-- Modelled from the spec: `WaypointListBuilder::Visit`, whose code is in
`Waypoint/WaypointListBuilder.cpp`.  "visit every waypoint in the repository,
evaluate Filter.Matches, and for each match ... appending a ListItem". -/
def WaypointListBuilder.Visit (env : Env) (filter : WaypointFilter) (location : GeoPoint)
    (list : WaypointList) (src : Waypoints) : WaypointList :=
  src.foldl (fun acc w => if env.Matches filter location w then acc ++ [⟨w⟩] else acc) list

/-- Insertion of one item into a list ordered by distance, before the first item
that is not nearer. -/
def insertByDistance (env : Env) (location : GeoPoint) (x : WaypointListItem) :
    WaypointList → WaypointList
  | [] => [x]
  | y :: ys =>
    if env.Distance location x.waypoint ≤ env.Distance location y.waypoint then x :: y :: ys
    else y :: insertByDistance env location x ys

/-- Modelled from the spec: `WaypointList::SortByDistance`, whose code is in
`Waypoint/WaypointList.cpp`.  "stable sort by ascending distance from
observerLocation, applied to the list in place". -/
def WaypointList.SortByDistance (env : Env) (location : GeoPoint) (list : WaypointList) :
    WaypointList :=
  list.foldr (insertByDistance env location) []

/-- Function `FillList`: the list after the call, `none` when `ToFilter` reads outside a table. -/
def FillList (env : Env) (list : WaypointList) (src : Waypoints) (location : GeoPoint)
    (heading : Angle) (state : WaypointListDialogState) : Option WaypointList :=
  if !state.IsDefined && decide (src.size ≥ 500) then
    some list
  else
    match state.ToFilter env heading with
    | none => none
    | some filter =>
      let list := WaypointListBuilder.Visit env filter location list src
      if positive filter.distance || !negative filter.direction.Native then
        some (WaypointList.SortByDistance env location list)
      else
        some list

/-- Function `FillLastUsedList`: the loop from `rbegin()` to `rend()`, one `LookupId` per id,
`continue` on a miss and `push_back` otherwise. -/
def FillLastUsedList (list : WaypointList) (last_used_ids : WaypointIDList)
    (waypoints : Waypoints) : WaypointList :=
  last_used_ids.reverse.foldl
    (fun acc id =>
      match waypoints.LookupId id with
      | none => acc
      | some waypoint => acc ++ [⟨waypoint⟩])
    list

/-- The file-level variables of the dialog that a query reads or writes. -/
structure DialogGlobals where
  location : GeoPoint
  last_heading : Angle
  name_filter_index : Int
  filter_data : WaypointListDialogState
  waypoint_list : WaypointList
  deriving DecidableEq, Repr

/-- Function `UpdateList`, with the repository `way_points` and `LastUsedWaypoints::GetList()`
as arguments.  The four calls on `waypoint_list_control` that end the function
act on the list widget only and are left out. -/
def UpdateList (env : Env) (way_points : Waypoints) (last_used : WaypointIDList)
    (g : DialogGlobals) : Option DialogGlobals :=
  let g := { g with waypoint_list := [] }
  if g.filter_data.type_index = TypeFilter.LAST_USED then
    some { g with waypoint_list := FillLastUsedList g.waypoint_list last_used way_points }
  else
    match FillList env g.waypoint_list way_points g.location g.last_heading g.filter_data with
    | none => none
    | some list => some { g with waypoint_list := list }

/-! ## Dialogs/dlgWaypointSelect.cpp: name filter -/

/-- Function `_tcslen`: the number of codes before the first terminator. -/
def tcslen (buffer : List TCHAR) : Nat :=
  (buffer.takeWhile (fun c => c != NUL)).length

/-- The C string held by a buffer: the codes before the first terminator. -/
def cstr (buffer : List TCHAR) : List TCHAR :=
  buffer.takeWhile (fun c => c != NUL)

/-- Conversion to `int`: reduction into the 32-bit two-complement range. -/
def toInt (x : Int) : Int :=
  (x + 2 ^ 31) % 2 ^ 32 - 2 ^ 31

/-- Subtraction of `size_t` values, `w` being the width of `size_t`. -/
def size_t_sub (w : Nat) (a b : Nat) : Nat :=
  (a % 2 ^ w + 2 ^ w - b % 2 ^ w) % 2 ^ w

/-- The index update of `OnFilterNameButtonRight` (the increment and the test). -/
def OnFilterNameButtonRight.index (w : Nat) (name_filter : List TCHAR)
    (name_filter_index : Int) : Int :=
  let name_filter_index := toInt (name_filter_index + 1)
  if name_filter_index > toInt (size_t_sub w (tcslen name_filter) 2) then -1
  else name_filter_index

/-- The index update of `OnFilterNameButtonLeft`. -/
def OnFilterNameButtonLeft.index (w : Nat) (name_filter : List TCHAR)
    (name_filter_index : Int) : Int :=
  if name_filter_index = -1 then toInt (size_t_sub w (tcslen name_filter) 1)
  else toInt (name_filter_index - 1)

/-- The name written by `NameButtonUpdateChar` into `filter_data.name`; `none`
when `name_filter[name_filter_index]` is a read outside the buffer. -/
def NameButtonUpdateChar.name (name_filter : List TCHAR) (name_filter_index : Int) :
    Option (List TCHAR) :=
  if name_filter_index = -1 then some []
  else
    match tableAt name_filter name_filter_index with
    | none => none
    | some c => some (cstr [c, NUL])

/-- Function `NameButtonUpdateChar`; `name_filter` is the buffer returned by
`WaypointNameAllowedCharacters(_T(""))`. -/
def NameButtonUpdateChar (env : Env) (way_points : Waypoints) (last_used : WaypointIDList)
    (name_filter : List TCHAR) (g : DialogGlobals) : Option DialogGlobals :=
  match NameButtonUpdateChar.name name_filter g.name_filter_index with
  | none => none
  | some name =>
    UpdateList env way_points last_used { g with filter_data := { g.filter_data with name := name } }

/-- Function `OnFilterNameButtonRight`. -/
def OnFilterNameButtonRight (env : Env) (w : Nat) (way_points : Waypoints)
    (last_used : WaypointIDList) (name_filter : List TCHAR) (g : DialogGlobals) :
    Option DialogGlobals :=
  NameButtonUpdateChar env way_points last_used name_filter
    { g with name_filter_index := OnFilterNameButtonRight.index w name_filter g.name_filter_index }

/-- Function `OnFilterNameButtonLeft`. -/
def OnFilterNameButtonLeft (env : Env) (w : Nat) (way_points : Waypoints)
    (last_used : WaypointIDList) (name_filter : List TCHAR) (g : DialogGlobals) :
    Option DialogGlobals :=
  NameButtonUpdateChar env way_points last_used name_filter
    { g with name_filter_index := OnFilterNameButtonLeft.index w name_filter g.name_filter_index }

/-- The two keys of the single-letter search. -/
inductive NameKey where
  | Left
  | Right
  deriving DecidableEq, Repr

/-- The index after one key. -/
def nameIndexStep (w : Nat) (name_filter : List TCHAR) (i : Int) : NameKey → Int
  | NameKey.Left => OnFilterNameButtonLeft.index w name_filter i
  | NameKey.Right => OnFilterNameButtonRight.index w name_filter i

/-- The index after a sequence of keys, from the initial value `-1`. -/
def nameIndexRun (w : Nat) (name_filter : List TCHAR) (keys : List NameKey) : Int :=
  keys.foldl (nameIndexStep w name_filter) (-1)

/-- The trimming loop of `OnFilterNameButton`, `while (i >= 0)`, with the counter
held as `k = i + 1`: stop at the first code that is not a space, otherwise write
the terminator at `i` and step down. -/
def trimLoop (new_name_filter : List TCHAR) : Nat → List TCHAR
  | 0 => new_name_filter
  | k + 1 =>
    if new_name_filter.getD k NUL != SPACE then new_name_filter
    else trimLoop (new_name_filter.set k NUL) k

/-- The buffer `new_name_filter` after the loop, entered with `i = _tcslen(...) - 1`. -/
def trimTrailingSpaces (new_name_filter : List TCHAR) : List TCHAR :=
  trimLoop new_name_filter (tcslen new_name_filter)

/-- An environment for concrete evaluation: kilometres as the distance unit, a
filter that accepts every waypoint, and the latitude gap as the distance. -/
def Env.sample : Env where
  ToSysDistance := fun x => x * 1000
  Matches := fun _ _ _ => true
  Distance := fun location w => ((w.location.latitude.value - location.latitude.value).natAbs : Int)

/-- A waypoint with the given id, at the given latitude. -/
def Waypoint.sample (id : Nat) (latitude : Int) : Waypoint :=
  { id := id, name := [65 + id], location := ⟨⟨0⟩, ⟨latitude⟩⟩ }

/-- The observer at the origin. -/
def GeoPoint.origin : GeoPoint := ⟨⟨0⟩, ⟨0⟩⟩

/-- The dialog state without any criterion. -/
def WaypointListDialogState.wildcard : WaypointListDialogState :=
  { name := [], distance_index := 0, direction_index := 0, type_index := TypeFilter.ALL }

/-- A repository of `n` waypoints with ids `0 .. n-1`. -/
def Waypoints.sample (n : Nat) : Waypoints :=
  (List.range n).map (fun i => Waypoint.sample i (Int.ofNat i))

/-! ## Lemmas on the list construction -/

theorem Visit_eq_append (env : Env) (filter : WaypointFilter) (location : GeoPoint)
    (src : Waypoints) : ∀ list : WaypointList,
    WaypointListBuilder.Visit env filter location list src =
      list ++ (src.filter (env.Matches filter location)).map WaypointListItem.mk := by
  unfold WaypointListBuilder.Visit
  induction src with
  | nil => intro list; simp
  | cons w ws ih =>
    intro list
    simp only [List.foldl_cons]
    rw [ih]
    by_cases hw : env.Matches filter location w = true
    · simp [hw, List.filter_cons]
    · simp [hw, List.filter_cons]

theorem foldl_lookup_eq_append (waypoints : Waypoints) (ids : List Nat) :
    ∀ list : WaypointList,
    ids.foldl
      (fun acc id =>
        match waypoints.LookupId id with
        | none => acc
        | some waypoint => acc ++ [⟨waypoint⟩])
      list =
      list ++ (ids.filterMap waypoints.LookupId).map WaypointListItem.mk := by
  induction ids with
  | nil => intro list; simp
  | cons id ids ih =>
    intro list
    simp only [List.foldl_cons]
    rw [ih]
    cases h : waypoints.LookupId id with
    | none => simp [List.filterMap_cons, h]
    | some w => simp [List.filterMap_cons, h]

theorem FillLastUsedList_eq_append (list : WaypointList) (ids : WaypointIDList)
    (waypoints : Waypoints) :
    FillLastUsedList list ids waypoints =
      list ++ (ids.reverse.filterMap waypoints.LookupId).map WaypointListItem.mk := by
  unfold FillLastUsedList
  exact foldl_lookup_eq_append waypoints ids.reverse list

theorem LookupId_id {waypoints : Waypoints} {id : Nat} {w : Waypoint}
    (h : waypoints.LookupId id = some w) : w.id = id := by
  unfold Waypoints.LookupId at h
  have := List.find?_some h
  simpa using this

theorem filterMap_LookupId_ids (waypoints : Waypoints) (ids : List Nat) :
    ((ids.filterMap waypoints.LookupId).map Waypoint.id).Sublist ids := by
  induction ids with
  | nil => simp
  | cons id ids ih =>
    cases h : waypoints.LookupId id with
    | none =>
      simp only [List.filterMap_cons, h]
      exact ih.cons _
    | some w =>
      simp only [List.filterMap_cons, h, List.map_cons]
      rw [LookupId_id h]
      exact ih.cons₂ _

theorem insertByDistance_perm (env : Env) (location : GeoPoint) (x : WaypointListItem) :
    ∀ l : WaypointList, (insertByDistance env location x l).Perm (x :: l) := by
  intro l
  induction l with
  | nil => exact List.Perm.refl _
  | cons y ys ih =>
    unfold insertByDistance
    split
    · exact List.Perm.refl _
    · exact (List.Perm.cons y ih).trans (List.Perm.swap x y ys)

theorem SortByDistance_perm (env : Env) (location : GeoPoint) :
    ∀ l : WaypointList, (WaypointList.SortByDistance env location l).Perm l := by
  intro l
  induction l with
  | nil => exact List.Perm.refl _
  | cons x xs ih =>
    show (insertByDistance env location x (WaypointList.SortByDistance env location xs)).Perm _
    exact (insertByDistance_perm env location x _).trans (List.Perm.cons x ih)

theorem insertByDistance_sorted (env : Env) (location : GeoPoint) (x : WaypointListItem) :
    ∀ l : WaypointList,
    l.Pairwise (fun a b => env.Distance location a.waypoint ≤ env.Distance location b.waypoint) →
    (insertByDistance env location x l).Pairwise
      (fun a b => env.Distance location a.waypoint ≤ env.Distance location b.waypoint) := by
  intro l
  induction l with
  | nil => intro _; simp [insertByDistance]
  | cons y ys ih =>
    intro h
    have hy := List.pairwise_cons.mp h
    unfold insertByDistance
    split
    · rename_i hxy
      refine List.pairwise_cons.mpr ⟨?_, h⟩
      intro z hz
      rcases List.mem_cons.mp hz with hz | hz
      · rw [hz]; exact hxy
      · exact le_trans hxy (hy.1 z hz)
    · rename_i hxy
      refine List.pairwise_cons.mpr ⟨?_, ih hy.2⟩
      intro z hz
      have hz2 : z ∈ x :: ys := (insertByDistance_perm env location x ys).mem_iff.mp hz
      rcases List.mem_cons.mp hz2 with hz3 | hz3
      · rw [hz3]; exact le_of_lt (not_le.mp hxy)
      · exact hy.1 z hz3

theorem SortByDistance_sorted (env : Env) (location : GeoPoint) :
    ∀ l : WaypointList,
    (WaypointList.SortByDistance env location l).Pairwise
      (fun a b => env.Distance location a.waypoint ≤ env.Distance location b.waypoint) := by
  intro l
  induction l with
  | nil => exact List.Pairwise.nil
  | cons x xs ih =>
    show (insertByDistance env location x (WaypointList.SortByDistance env location xs)).Pairwise _
    exact insertByDistance_sorted env location x _ ih

theorem FillList_early (env : Env) (list : WaypointList) (src : Waypoints)
    (location : GeoPoint) (heading : Angle) (state : WaypointListDialogState)
    (hdef : state.IsDefined = false) (hsize : 500 ≤ src.size) :
    FillList env list src location heading state = some list := by
  simp [FillList, hdef, hsize]

theorem IsDefined_wildcard (state : WaypointListDialogState) (hname : state.name = [])
    (hdist : state.distance_index = 0) (hdir : state.direction_index = 0)
    (htype : state.type_index = TypeFilter.ALL) : state.IsDefined = false := by
  simp [WaypointListDialogState.IsDefined, hname, hdist, hdir, htype]

theorem ToFilter_zero_indices (env : Env) (state : WaypointListDialogState) (heading : Angle)
    (hdist : state.distance_index = 0) (hdir : state.direction_index = 0) :
    state.ToFilter env heading =
      some { name := state.name, distance := env.ToSysDistance 0,
             type_index := state.type_index, direction := Angle.Degrees (-1) } := by
  simp [WaypointListDialogState.ToFilter, hdist, hdir, tableAt, distance_filter_items,
    direction_filter_items]

theorem sample_size (n : Nat) : (Waypoints.sample n).size = n := by
  simp [Waypoints.sample, Waypoints.size]

theorem FillList_run (env : Env) (list : WaypointList) (src : Waypoints)
    (location : GeoPoint) (heading : Angle) (state : WaypointListDialogState)
    (filter : WaypointFilter)
    (hrun : state.IsDefined = true ∨ src.size < 500)
    (hfilter : state.ToFilter env heading = some filter) :
    FillList env list src location heading state =
      some (if positive filter.distance || !negative filter.direction.Native then
              WaypointList.SortByDistance env location
                (WaypointListBuilder.Visit env filter location list src)
            else WaypointListBuilder.Visit env filter location list src) := by
  have hcond : (!state.IsDefined && decide (src.size ≥ 500)) = false := by
    rcases hrun with h | h
    · simp [h]
    · simp [Nat.not_le.mpr h]
  by_cases hsort : (positive filter.distance || !negative filter.direction.Native) = true
  · simp only [FillList, hcond, hfilter, hsort, if_true, Bool.false_eq_true, if_false]
  · simp only [FillList, hcond, hfilter, hsort, Bool.false_eq_true, if_false]

theorem distance_table_range (i : Int) (h0 : 0 ≤ i) (h8 : i ≤ 8) :
    ∃ d, tableAt distance_filter_items i = some d ∧ (1 ≤ i → 0 < d) := by
  interval_cases i <;> simp [tableAt, distance_filter_items]

theorem direction_table_range (j : Int) (h0 : 0 ≤ j) (h13 : j ≤ 13) :
    ∃ r, tableAt direction_filter_items j = some r ∧ (2 ≤ j → 0 ≤ r) := by
  interval_cases j <;> simp [tableAt, direction_filter_items]

theorem ToFilter_in_range (env : Env) (state : WaypointListDialogState) (heading : Angle)
    (hunit : ∀ x : fixed, 0 < x → 0 < env.ToSysDistance x)
    (hd0 : 0 ≤ state.distance_index) (hd8 : state.distance_index ≤ 8)
    (hr0 : 0 ≤ state.direction_index) (hr13 : state.direction_index ≤ 13) :
    ∃ filter, state.ToFilter env heading = some filter ∧
      (1 ≤ state.distance_index → 0 < filter.distance) ∧
      (2 ≤ state.direction_index → 0 ≤ filter.direction.Native) ∧
      (state.direction_index = 1 → filter.direction = heading) := by
  obtain ⟨d, hd, hdpos⟩ := distance_table_range state.distance_index hd0 hd8
  obtain ⟨r, hr, hrpos⟩ := direction_table_range state.direction_index hr0 hr13
  by_cases h1 : state.direction_index = 1
  · refine ⟨{ name := state.name, distance := env.ToSysDistance d,
              type_index := state.type_index, direction := heading }, ?_, ?_, ?_, ?_⟩
    · simp only [WaypointListDialogState.ToFilter, hd, h1, ne_eq, not_true_eq_false, if_false]
    · intro h; exact hunit d (hdpos h)
    · intro h; omega
    · intro _; rfl
  · refine ⟨{ name := state.name, distance := env.ToSysDistance d,
              type_index := state.type_index, direction := Angle.Degrees r }, ?_, ?_, ?_, ?_⟩
    · simp only [WaypointListDialogState.ToFilter, hd, hr, h1, ne_eq, not_false_eq_true, if_true]
    · intro h; exact hunit d (hdpos h)
    · intro h; exact hrpos h
    · intro h; exact absurd h h1

theorem FillList_isSome (env : Env) (list : WaypointList) (src : Waypoints)
    (location : GeoPoint) (heading : Angle) (state : WaypointListDialogState)
    (hd0 : 0 ≤ state.distance_index) (hd8 : state.distance_index ≤ 8)
    (hr0 : 0 ≤ state.direction_index) (hr13 : state.direction_index ≤ 13) :
    (FillList env list src location heading state).isSome = true := by
  obtain ⟨d, hd, _⟩ := distance_table_range state.distance_index hd0 hd8
  obtain ⟨r, hr, _⟩ := direction_table_range state.direction_index hr0 hr13
  have hfilter : ∃ filter, state.ToFilter env heading = some filter := by
    by_cases h1 : state.direction_index = 1
    · exact ⟨{ name := state.name, distance := env.ToSysDistance d,
               type_index := state.type_index, direction := heading },
        by simp only [WaypointListDialogState.ToFilter, hd, h1, ne_eq,
          not_true_eq_false, if_false]⟩
    · exact ⟨{ name := state.name, distance := env.ToSysDistance d,
               type_index := state.type_index, direction := Angle.Degrees r },
        by simp only [WaypointListDialogState.ToFilter, hd, hr, h1, ne_eq,
          not_false_eq_true, if_true]⟩
  obtain ⟨filter, hfilter⟩ := hfilter
  by_cases hearly : (!state.IsDefined && decide (src.size ≥ 500)) = true
  · simp only [FillList, hearly, if_true, Option.isSome_some]
  · simp only [FillList, hearly, hfilter, Bool.false_eq_true, if_false]
    split <;> rfl

theorem UpdateList_unfold (env : Env) (way_points : Waypoints) (last_used : WaypointIDList)
    (g : DialogGlobals) :
    UpdateList env way_points last_used g =
      if g.filter_data.type_index = TypeFilter.LAST_USED then
        some { g with waypoint_list := FillLastUsedList [] last_used way_points }
      else
        (FillList env [] way_points g.location g.last_heading g.filter_data).map
          (fun list => { g with waypoint_list := list }) := by
  unfold UpdateList
  by_cases h : g.filter_data.type_index = TypeFilter.LAST_USED
  · simp only [h, if_true]
  · simp only [h, if_false]
    cases FillList env [] way_points g.location g.last_heading g.filter_data <;> rfl

/-! ## Lemmas on the name filter -/

theorem takeWhile_get (p : TCHAR → Bool) : ∀ (l : List TCHAR) (k : Nat),
    k < (l.takeWhile p).length → ∃ c, l.get? k = some c ∧ p c = true := by
  intro l
  induction l with
  | nil => intro k hk; simp at hk
  | cons a l ih =>
    intro k hk
    by_cases ha : p a = true
    · rw [List.takeWhile_cons_of_pos ha] at hk
      cases k with
      | zero => exact ⟨a, rfl, ha⟩
      | succ k =>
        have hk2 : k < (l.takeWhile p).length := by simpa using hk
        exact ih k hk2
    · rw [List.takeWhile_cons_of_neg ha] at hk
      simp at hk

theorem toInt_size_t_sub (w : Nat) (hw : w = 32 ∨ w = 64) (n b : Nat)
    (hn : n < 2147483648) (hb : b = 1 ∨ b = 2) :
    toInt (size_t_sub w n b) = (n : Int) - (b : Int) := by
  unfold toInt size_t_sub
  rcases hw with rfl | rfl <;> rcases hb with rfl | rfl <;> omega

theorem toInt_small (x : Int) (hlo : -2147483648 ≤ x) (hhi : x < 2147483648) :
    toInt x = x := by
  unfold toInt
  omega

theorem index_step_range (w : Nat) (hw : w = 32 ∨ w = 64) (name_filter : List TCHAR)
    (hlen : tcslen name_filter < 2 ^ 31) (i : Int) (key : NameKey)
    (hlo : -1 ≤ i) (hhi : i ≤ (tcslen name_filter : Int) - 1) :
    -1 ≤ nameIndexStep w name_filter i key ∧
      nameIndexStep w name_filter i key ≤ (tcslen name_filter : Int) - 1 := by
  have hn : tcslen name_filter < 2147483648 := by simpa using hlen
  cases key with
  | Left =>
    simp only [nameIndexStep, OnFilterNameButtonLeft.index]
    rw [toInt_size_t_sub w hw _ 1 hn (Or.inl rfl), toInt_small (i - 1) (by omega) (by omega)]
    split <;> constructor <;> omega
  | Right =>
    simp only [nameIndexStep, OnFilterNameButtonRight.index]
    rw [toInt_size_t_sub w hw _ 2 hn (Or.inr rfl), toInt_small (i + 1) (by omega) (by omega)]
    split <;> constructor <;> omega

theorem index_run_range (w : Nat) (hw : w = 32 ∨ w = 64) (name_filter : List TCHAR)
    (hlen : tcslen name_filter < 2 ^ 31) (keys : List NameKey) :
    ∀ i : Int, -1 ≤ i → i ≤ (tcslen name_filter : Int) - 1 →
      -1 ≤ keys.foldl (nameIndexStep w name_filter) i ∧
        keys.foldl (nameIndexStep w name_filter) i ≤ (tcslen name_filter : Int) - 1 := by
  induction keys with
  | nil => intro i hlo hhi; exact ⟨hlo, hhi⟩
  | cons key keys ih =>
    intro i hlo hhi
    have hstep := index_step_range w hw name_filter hlen i key hlo hhi
    exact ih _ hstep.1 hstep.2

theorem getD_append_length (p : List TCHAR) (c : TCHAR) (rest : List TCHAR) (d : TCHAR) :
    (p ++ c :: rest).getD p.length d = c := by
  induction p with
  | nil => rfl
  | cons a p ih => simpa using ih

theorem set_append_length (p : List TCHAR) (c : TCHAR) (rest : List TCHAR) (d : TCHAR) :
    (p ++ c :: rest).set p.length d = p ++ d :: rest := by
  induction p with
  | nil => rfl
  | cons a p ih => simp

theorem cstr_append (pre rest : List TCHAR) (hpre : ∀ c ∈ pre, c ≠ NUL)
    (hrest : cstr rest = []) : cstr (pre ++ rest) = pre := by
  induction pre with
  | nil => simpa using hrest
  | cons a pre ih =>
    have ha : (a != NUL) = true := by simpa using hpre a (List.mem_cons_self _ _)
    have ih2 := ih (fun c hc => hpre c (List.mem_cons_of_mem _ hc))
    unfold cstr at ih2 ⊢
    simp only [List.cons_append, List.takeWhile_cons, ha, if_true, ih2]

theorem cstr_dropWhile (buffer : List TCHAR) :
    cstr (buffer.dropWhile (fun c => c != NUL)) = [] := by
  induction buffer with
  | nil => rfl
  | cons a l ih =>
    by_cases ha : (a != NUL) = true
    · simp only [List.dropWhile_cons, ha, if_true]; exact ih
    · simp only [List.dropWhile_cons, ha, if_false, cstr, List.takeWhile_cons]
      simp [ha]

theorem cstr_no_NUL (buffer : List TCHAR) : ∀ c ∈ cstr buffer, c ≠ NUL := by
  intro c hc
  have := List.mem_takeWhile_imp hc
  simpa using this

theorem buffer_split (buffer : List TCHAR) :
    buffer = cstr buffer ++ buffer.dropWhile (fun c => c != NUL) :=
  (List.takeWhile_append_dropWhile _ buffer).symm

theorem trimLoop_stop (buffer : List TCHAR) (k : Nat)
    (h : k = 0 ∨ buffer.getD (k - 1) NUL ≠ SPACE) : trimLoop buffer k = buffer := by
  cases k with
  | zero => rfl
  | succ k =>
    rcases h with h | h
    · cases h
    · have h2 : (buffer.getD k NUL != SPACE) = true := by simpa using h
      simp only [trimLoop, h2, if_true]

theorem trimLoop_append : ∀ (pre rest : List TCHAR), (∀ c ∈ pre, c ≠ NUL) → cstr rest = [] →
    ∃ (kept : List TCHAR) (n : Nat) (rest1 : List TCHAR),
      trimLoop (pre ++ rest) pre.length = kept ++ rest1 ∧
      pre = kept ++ List.replicate n SPACE ∧ kept.getLast? ≠ some SPACE ∧
      cstr rest1 = [] := by
  intro pre
  refine List.list_reverse_induction
    (fun pre => ∀ rest : List TCHAR, (∀ c ∈ pre, c ≠ NUL) → cstr rest = [] →
      ∃ (kept : List TCHAR) (n : Nat) (rest1 : List TCHAR),
        trimLoop (pre ++ rest) pre.length = kept ++ rest1 ∧
        pre = kept ++ List.replicate n SPACE ∧ kept.getLast? ≠ some SPACE ∧
        cstr rest1 = []) ?_ ?_ pre
  · intro rest _ hrest
    exact ⟨[], 0, rest, rfl, rfl, by simp, hrest⟩
  · intro p c ih rest hpre hrest
    have hlen : (p ++ [c]).length = p.length + 1 := by simp
    have hbuf : p ++ [c] ++ rest = p ++ c :: rest := by simp
    rw [hlen, hbuf]
    by_cases hc : c = SPACE
    · have hnot : ((p ++ c :: rest).getD p.length NUL != SPACE) = false := by
        rw [getD_append_length]; simp [hc]
      have hNUL : cstr (NUL :: rest) = [] := by simp [cstr, NUL]
      obtain ⟨kept, n, rest1, h1, h2, h3, h4⟩ :=
        ih (NUL :: rest) (fun x hx => hpre x (List.mem_append_left _ hx)) hNUL
      refine ⟨kept, n + 1, rest1, ?_, ?_, h3, h4⟩
      · simp only [trimLoop, hnot, Bool.false_eq_true, if_false, set_append_length]
        exact h1
      · rw [List.replicate_succ', ← List.append_assoc, ← h2, hc]
    · refine ⟨p ++ [c], 0, rest, ?_, by simp, ?_, hrest⟩
      · have hyes : ((p ++ c :: rest).getD p.length NUL != SPACE) = true := by
          rw [getD_append_length]; simpa using hc
        simp only [trimLoop, hyes, if_true]
        simp
      · rw [List.getLast?_concat]
        intro h
        exact hc (Option.some.inj h)

theorem trimTrailingSpaces_split (buffer : List TCHAR) :
    ∃ (kept : List TCHAR) (n : Nat) (rest1 : List TCHAR),
      trimTrailingSpaces buffer = kept ++ rest1 ∧
      cstr buffer = kept ++ List.replicate n SPACE ∧ kept.getLast? ≠ some SPACE ∧
      cstr rest1 = [] ∧ cstr (trimTrailingSpaces buffer) = kept := by
  obtain ⟨kept, n, rest1, h1, h2, h3, h4⟩ :=
    trimLoop_append (cstr buffer) (buffer.dropWhile (fun c => c != NUL))
      (cstr_no_NUL buffer) (cstr_dropWhile buffer)
  rw [← buffer_split buffer] at h1
  have h1b : trimTrailingSpaces buffer = kept ++ rest1 := h1
  refine ⟨kept, n, rest1, h1b, h2, h3, h4, ?_⟩
  rw [h1b]
  refine cstr_append kept rest1 ?_ h4
  intro c hc
  exact cstr_no_NUL buffer c (by rw [h2]; exact List.mem_append_left _ hc)

theorem last_not_space_cases (l : List TCHAR) (h : l.getLast? ≠ some SPACE) :
    l = [] ∨ ∃ q c, l = q ++ [c] ∧ c ≠ SPACE := by
  cases hl : l.getLast? with
  | none => exact Or.inl (List.getLast?_eq_none_iff.mp hl)
  | some c =>
    obtain ⟨q, hq⟩ := List.getLast?_eq_some_iff.mp hl
    refine Or.inr ⟨q, c, hq, ?_⟩
    intro hc
    exact h (by rw [hl, hc])

theorem trimTrailingSpaces_fixed (kept rest1 : List TCHAR) (hkept : ∀ c ∈ kept, c ≠ NUL)
    (hlast : kept.getLast? ≠ some SPACE) (hrest : cstr rest1 = []) :
    trimTrailingSpaces (kept ++ rest1) = kept ++ rest1 := by
  have hlen : tcslen (kept ++ rest1) = kept.length := by
    have := cstr_append kept rest1 hkept hrest
    unfold cstr at this
    unfold tcslen
    rw [this]
  unfold trimTrailingSpaces
  rw [hlen]
  apply trimLoop_stop
  rcases last_not_space_cases kept hlast with h | ⟨q, c, hq, hc⟩
  · left; rw [h]; rfl
  · right
    rw [hq]
    have h1 : (q ++ [c]).length - 1 = q.length := by simp
    have h2 : q ++ [c] ++ rest1 = q ++ c :: rest1 := by simp
    rw [h1, h2, getD_append_length]
    exact hc

/-! ## Theorems -/

/-- C8: `SwitchState::Reset` is a flat field reset: from every prior state it yields
the one state with the eleven switches false and the flight mode `UNKNOWN`, so two
resets of any two states agree and a second reset changes nothing. -/
theorem SwitchState_Reset_flat (s t : SwitchState) :
    s.Reset =
      { airbrake_locked := false, flap_positive := false, flap_neutral := false,
        flap_negative := false, gear_extended := false, acknowledge := false,
        repeat_ := false, speed_command := false, user_switch_up := false,
        user_switch_middle := false, user_switch_down := false,
        flight_mode := FlightMode.UNKNOWN } ∧
    s.Reset = t.Reset ∧ s.Reset.Reset = s.Reset := by
  refine ⟨rfl, rfl, rfl⟩

/-- C2: `FillLastUsedList` appends exactly the waypoints found by walking the id
sequence in reverse and looking each id up, misses dropped and the reversed order
kept; three resolvable ids and an empty list give the three waypoints, newest first. -/
theorem FillLastUsedList_reverse_lookup (list : WaypointList) (ids : WaypointIDList)
    (waypoints : Waypoints) :
    FillLastUsedList list ids waypoints =
      list ++ (ids.reverse.filterMap waypoints.LookupId).map WaypointListItem.mk ∧
    ∀ (id1 id2 id3 : Nat) (w1 w2 w3 : Waypoint),
      waypoints.LookupId id1 = some w1 → waypoints.LookupId id2 = some w2 →
      waypoints.LookupId id3 = some w3 →
      FillLastUsedList [] [id1, id2, id3] waypoints = [⟨w3⟩, ⟨w2⟩, ⟨w1⟩] := by
  refine ⟨FillLastUsedList_eq_append list ids waypoints, ?_⟩
  intro id1 id2 id3 w1 w2 w3 h1 h2 h3
  rw [FillLastUsedList_eq_append]
  simp [List.filterMap_cons, h1, h2, h3]

/-- Witness of C2: ids 2, 7 (unknown), 0 on a repository of three waypoints. -/
theorem FillLastUsedList_reverse_lookup_witness :
    FillLastUsedList [] [2, 7, 0] (Waypoints.sample 3) =
      [⟨Waypoint.sample 0 0⟩, ⟨Waypoint.sample 2 2⟩] ∧
    FillLastUsedList [] [0, 1, 2] (Waypoints.sample 3) =
      [⟨Waypoint.sample 2 2⟩, ⟨Waypoint.sample 1 1⟩, ⟨Waypoint.sample 0 0⟩] :=
  ⟨by decide,
   (FillLastUsedList_reverse_lookup [] [] (Waypoints.sample 3)).2 0 1 2
     (Waypoint.sample 0 0) (Waypoint.sample 1 1) (Waypoint.sample 2 2)
     (by decide) (by decide) (by decide)⟩

/-- C7, as stated, fails: the id sequence 1, 1 puts waypoint 1 into the list twice. -/
theorem UpdateList_last_used_duplicate :
    UpdateList Env.sample (Waypoints.sample 3) [1, 1]
        { location := GeoPoint.origin, last_heading := Angle.Zero, name_filter_index := -1,
          filter_data := { WaypointListDialogState.wildcard with type_index := TypeFilter.LAST_USED },
          waypoint_list := [] } =
      some { location := GeoPoint.origin, last_heading := Angle.Zero, name_filter_index := -1,
             filter_data := { WaypointListDialogState.wildcard with type_index := TypeFilter.LAST_USED },
             waypoint_list := [⟨Waypoint.sample 1 1⟩, ⟨Waypoint.sample 1 1⟩] } ∧
    ¬ List.Nodup [(⟨Waypoint.sample 1 1⟩ : WaypointListItem), ⟨Waypoint.sample 1 1⟩] := by
  constructor
  · decide
  · decide

/-- C7, amended: when the sequence of recently-used ids holds no id twice, the list
built by `UpdateList` on the last-used path holds no waypoint twice, whatever the
repository and the prior list. -/
theorem UpdateList_last_used_nodup (env : Env) (way_points : Waypoints)
    (last_used : WaypointIDList) (g : DialogGlobals)
    (htype : g.filter_data.type_index = TypeFilter.LAST_USED) (hids : last_used.Nodup) :
    UpdateList env way_points last_used g =
      some { g with waypoint_list := FillLastUsedList [] last_used way_points } ∧
    (FillLastUsedList [] last_used way_points).Nodup := by
  refine ⟨?_, ?_⟩
  · simp [UpdateList, htype]
  · rw [FillLastUsedList_eq_append, List.nil_append]
    have hsub := filterMap_LookupId_ids way_points last_used.reverse
    have hnd : (last_used.reverse).Nodup := List.nodup_reverse.mpr hids
    have h1 : ((last_used.reverse.filterMap way_points.LookupId).map Waypoint.id).Nodup :=
      hsub.nodup hnd
    have h2 : (last_used.reverse.filterMap way_points.LookupId).Nodup := List.Nodup.of_map _ h1
    exact h2.map (fun a b hab => by cases hab; rfl)

/-- Witness of the amended C7: ids 0, 2, 1 on a repository of three waypoints. -/
theorem UpdateList_last_used_nodup_witness :
    UpdateList Env.sample (Waypoints.sample 3) [0, 2, 1]
        { location := GeoPoint.origin, last_heading := Angle.Zero, name_filter_index := -1,
          filter_data := { WaypointListDialogState.wildcard with type_index := TypeFilter.LAST_USED },
          waypoint_list := [⟨Waypoint.sample 5 5⟩] } =
      some { location := GeoPoint.origin, last_heading := Angle.Zero, name_filter_index := -1,
             filter_data := { WaypointListDialogState.wildcard with type_index := TypeFilter.LAST_USED },
             waypoint_list := FillLastUsedList [] [0, 2, 1] (Waypoints.sample 3) } ∧
    (FillLastUsedList [] [0, 2, 1] (Waypoints.sample 3)).Nodup :=
  UpdateList_last_used_nodup Env.sample (Waypoints.sample 3) [0, 2, 1] _ rfl (by decide)

/-- C1: with more than 500 waypoints in the repository and no active criterion
(empty name, both indices 0, type ALL), `FillList` leaves the list exactly as it
was, so that `UpdateList`, which clears the list first, produces the empty list. -/
theorem FillList_large_unfiltered (env : Env) (list : WaypointList) (src : Waypoints)
    (location : GeoPoint) (heading : Angle) (state : WaypointListDialogState)
    (last_used : WaypointIDList) (g : DialogGlobals)
    (hsize : src.size > 500) (hname : state.name = []) (hdist : state.distance_index = 0)
    (hdir : state.direction_index = 0) (htype : state.type_index = TypeFilter.ALL)
    (hg : g.filter_data = state) :
    FillList env list src location heading state = some list ∧
    UpdateList env src last_used g = some { g with waypoint_list := [] } := by
  have hdef := IsDefined_wildcard state hname hdist hdir htype
  have hearly := fun l loc hd =>
    FillList_early env l src loc hd state hdef (Nat.le_of_lt hsize)
  refine ⟨hearly list location heading, ?_⟩
  have hne : g.filter_data.type_index ≠ TypeFilter.LAST_USED := by
    rw [hg, htype]; decide
  simp only [UpdateList, hne, if_false]
  rw [hg, hearly]

/-- Witness of C1: a repository of 501 waypoints and the wildcard state. -/
theorem FillList_large_unfiltered_witness :
    FillList Env.sample [⟨Waypoint.sample 9 9⟩] (Waypoints.sample 501) GeoPoint.origin
        Angle.Zero WaypointListDialogState.wildcard = some [⟨Waypoint.sample 9 9⟩] ∧
    UpdateList Env.sample (Waypoints.sample 501) [3]
        { location := GeoPoint.origin, last_heading := Angle.Zero, name_filter_index := -1,
          filter_data := WaypointListDialogState.wildcard,
          waypoint_list := [⟨Waypoint.sample 9 9⟩] } =
      some { location := GeoPoint.origin, last_heading := Angle.Zero, name_filter_index := -1,
             filter_data := WaypointListDialogState.wildcard, waypoint_list := [] } :=
  FillList_large_unfiltered Env.sample [⟨Waypoint.sample 9 9⟩] (Waypoints.sample 501)
    GeoPoint.origin Angle.Zero WaypointListDialogState.wildcard [3] _
    (by rw [sample_size]; decide) rfl rfl rfl rfl rfl

/-- C4, as stated, fails: on a repository of exactly 500 waypoints and the wildcard
state `FillList` returns early, leaving the empty list empty, although the builder
visit would have appended items. -/
theorem FillList_500_returns_early :
    (Waypoints.sample 500).size = 500 ∧
    FillList Env.sample [] (Waypoints.sample 500) GeoPoint.origin Angle.Zero
        WaypointListDialogState.wildcard = some [] ∧
    WaypointListBuilder.Visit Env.sample
        { name := [], distance := 0, type_index := TypeFilter.ALL,
          direction := Angle.Degrees (-1) }
        GeoPoint.origin [] (Waypoints.sample 500) ≠ [] := by
  refine ⟨sample_size 500, ?_, ?_⟩
  · exact FillList_early _ _ _ _ _ _ rfl (by rw [sample_size])
  · intro h
    have hlen := congrArg List.length h
    rw [Visit_eq_append] at hlen
    simp [Env.sample, Waypoints.sample] at hlen

/-- C4, amended: with no active criterion `FillList` returns early, leaving the list
as it was, exactly when the repository holds 500 waypoints or more; with fewer than
500 it runs the builder visit over every waypoint of the repository (the distance
unit taking the table entry 0 to the distance 0). -/
theorem FillList_threshold (env : Env) (list : WaypointList) (src : Waypoints)
    (location : GeoPoint) (heading : Angle) (state : WaypointListDialogState)
    (hunit : env.ToSysDistance 0 = 0)
    (hname : state.name = []) (hdist : state.distance_index = 0)
    (hdir : state.direction_index = 0) (htype : state.type_index = TypeFilter.ALL) :
    (500 ≤ src.size → FillList env list src location heading state = some list) ∧
    (src.size < 500 →
      FillList env list src location heading state =
        some (WaypointListBuilder.Visit env
          { name := [], distance := 0, type_index := TypeFilter.ALL,
            direction := Angle.Degrees (-1) } location list src)) ∧
    WaypointListBuilder.Visit env
        { name := [], distance := 0, type_index := TypeFilter.ALL,
          direction := Angle.Degrees (-1) } location list src =
      list ++ (src.filter (env.Matches
        { name := [], distance := 0, type_index := TypeFilter.ALL,
          direction := Angle.Degrees (-1) } location)).map WaypointListItem.mk := by
  have hdef := IsDefined_wildcard state hname hdist hdir htype
  refine ⟨FillList_early env list src location heading state hdef, ?_, Visit_eq_append _ _ _ _ _⟩
  intro hlt
  have hfilter := ToFilter_zero_indices env state heading hdist hdir
  rw [hunit, hname, htype] at hfilter
  rw [FillList_run env list src location heading state _ (Or.inr hlt) hfilter]
  simp [positive, negative, Angle.Native, Angle.Degrees]

/-- Witness of the amended C4: two waypoints are both listed, 500 are not. -/
theorem FillList_threshold_witness :
    (500 ≤ (Waypoints.sample 2).size →
      FillList Env.sample [] (Waypoints.sample 2) GeoPoint.origin Angle.Zero
        WaypointListDialogState.wildcard = some []) ∧
    ((Waypoints.sample 2).size < 500 →
      FillList Env.sample [] (Waypoints.sample 2) GeoPoint.origin Angle.Zero
          WaypointListDialogState.wildcard =
        some (WaypointListBuilder.Visit Env.sample
          { name := [], distance := 0, type_index := TypeFilter.ALL,
            direction := Angle.Degrees (-1) } GeoPoint.origin [] (Waypoints.sample 2))) ∧
    WaypointListBuilder.Visit Env.sample
        { name := [], distance := 0, type_index := TypeFilter.ALL,
          direction := Angle.Degrees (-1) } GeoPoint.origin [] (Waypoints.sample 2) =
      [] ++ ((Waypoints.sample 2).filter (Env.sample.Matches
        { name := [], distance := 0, type_index := TypeFilter.ALL,
          direction := Angle.Degrees (-1) } GeoPoint.origin)).map WaypointListItem.mk :=
  FillList_threshold Env.sample [] (Waypoints.sample 2) GeoPoint.origin Angle.Zero
    WaypointListDialogState.wildcard rfl rfl rfl rfl rfl

/-- C5: with distance_index 0 and direction_index 0, whatever the name, the type and
the heading, the filter built by `ToFilter` has distance zero and a negative
direction, and `FillList` returns the list without sorting it: the prior items,
then the accepted waypoints in the order of the visit (none on an early return). -/
theorem FillList_keeps_visit_order (env : Env) (list : WaypointList) (src : Waypoints)
    (location : GeoPoint) (heading : Angle) (state : WaypointListDialogState)
    (hunit : env.ToSysDistance 0 = 0)
    (hdist : state.distance_index = 0) (hdir : state.direction_index = 0) :
    state.ToFilter env heading =
      some { name := state.name, distance := 0, type_index := state.type_index,
             direction := Angle.Degrees (-1) } ∧
    negative (Angle.Degrees (-1)).Native = true ∧ positive (0 : fixed) = false ∧
    FillList env list src location heading state =
      some (if state.IsDefined = false ∧ 500 ≤ src.size then list
            else WaypointListBuilder.Visit env
              { name := state.name, distance := 0, type_index := state.type_index,
                direction := Angle.Degrees (-1) } location list src) ∧
    WaypointListBuilder.Visit env
        { name := state.name, distance := 0, type_index := state.type_index,
          direction := Angle.Degrees (-1) } location list src =
      list ++ (src.filter (env.Matches
        { name := state.name, distance := 0, type_index := state.type_index,
          direction := Angle.Degrees (-1) } location)).map WaypointListItem.mk := by
  have hfilter := ToFilter_zero_indices env state heading hdist hdir
  rw [hunit] at hfilter
  refine ⟨hfilter, by decide, by decide, ?_, Visit_eq_append _ _ _ _ _⟩
  by_cases hearly : state.IsDefined = false ∧ 500 ≤ src.size
  · rw [if_pos hearly]
    exact FillList_early env list src location heading state hearly.1 hearly.2
  · rw [if_neg hearly]
    have hrun : state.IsDefined = true ∨ src.size < 500 := by
      by_cases hd : state.IsDefined = true
      · exact Or.inl hd
      · right
        have hd2 : state.IsDefined = false := by simpa using hd
        exact Nat.not_le.mp (fun h => hearly ⟨hd2, h⟩)
    rw [FillList_run env list src location heading state _ hrun hfilter]
    simp [positive, negative, Angle.Native, Angle.Degrees]

/-- Witness of C5: the name "A" on three waypoints placed far, near, middle keeps
that order. -/
theorem FillList_keeps_visit_order_witness :
    FillList Env.sample [] [Waypoint.sample 0 30, Waypoint.sample 1 10, Waypoint.sample 2 20]
        GeoPoint.origin ⟨45⟩
        { name := [65], distance_index := 0, direction_index := 0,
          type_index := TypeFilter.AIRPORT } =
      some [⟨Waypoint.sample 0 30⟩, ⟨Waypoint.sample 1 10⟩, ⟨Waypoint.sample 2 20⟩] :=
  (FillList_keeps_visit_order Env.sample []
    [Waypoint.sample 0 30, Waypoint.sample 1 10, Waypoint.sample 2 20] GeoPoint.origin ⟨45⟩
    { name := [65], distance_index := 0, direction_index := 0,
      type_index := TypeFilter.AIRPORT } rfl rfl rfl).2.2.2.1

/-- C3, as stated, fails: with the bearing criterion "heading" (direction_index 1),
no distance criterion and a heading of negative native value, `FillList` does not
sort, and the output distances 30, 10 decrease. -/
theorem FillList_negative_heading_unsorted :
    FillList Env.sample [] [Waypoint.sample 0 30, Waypoint.sample 1 10] GeoPoint.origin ⟨-10⟩
        { name := [], distance_index := 0, direction_index := 1,
          type_index := TypeFilter.ALL } =
      some [⟨Waypoint.sample 0 30⟩, ⟨Waypoint.sample 1 10⟩] ∧
    ¬ List.Pairwise (fun a b : fixed => a ≤ b)
        ([(⟨Waypoint.sample 0 30⟩ : WaypointListItem), ⟨Waypoint.sample 1 10⟩].map
          (fun item => Env.sample.Distance GeoPoint.origin item.waypoint)) := by
  constructor
  · decide
  · decide

/-- C3, amended: with both indices inside their tables, when a distance criterion is
active (distance_index 1..8), or a fixed bearing is chosen (direction_index 2..13),
or the bearing is the heading (direction_index 1) and the heading is not negative,
`FillList` applies `SortByDistance` to the list after the builder visit: the output
is a rearrangement of the visited list whose distances from the observer location
are non-decreasing (the distance unit keeping positive distances positive). -/
theorem FillList_sorted_when_active (env : Env) (list : WaypointList) (src : Waypoints)
    (location : GeoPoint) (heading : Angle) (state : WaypointListDialogState)
    (hunit : ∀ x : fixed, 0 < x → 0 < env.ToSysDistance x)
    (hd0 : 0 ≤ state.distance_index) (hd8 : state.distance_index ≤ 8)
    (hr0 : 0 ≤ state.direction_index) (hr13 : state.direction_index ≤ 13)
    (hactive : 1 ≤ state.distance_index ∨ 2 ≤ state.direction_index ∨
      (state.direction_index = 1 ∧ 0 ≤ heading.Native)) :
    ∃ filter out, state.ToFilter env heading = some filter ∧
      FillList env list src location heading state = some out ∧
      out = WaypointList.SortByDistance env location
        (WaypointListBuilder.Visit env filter location list src) ∧
      out.Perm (list ++ (src.filter (env.Matches filter location)).map WaypointListItem.mk) ∧
      List.Pairwise (fun a b : fixed => a ≤ b)
        (out.map (fun item => env.Distance location item.waypoint)) := by
  obtain ⟨filter, hfilter, hdist, hdir, hhead⟩ :=
    ToFilter_in_range env state heading hunit hd0 hd8 hr0 hr13
  have hdef : state.IsDefined = true := by
    have : 0 < state.distance_index ∨ 0 < state.direction_index := by omega
    rcases this with h | h <;> simp [WaypointListDialogState.IsDefined, h]
  have hsort : (positive filter.distance || !negative filter.direction.Native) = true := by
    rcases hactive with h | h | ⟨h, hh⟩
    · have := hdist h
      simp [positive, this]
    · have := hdir h
      simp [negative, this]
    · rw [hhead h]
      simp [negative, hh]
  refine ⟨filter, _, hfilter, ?_, rfl, ?_, ?_⟩
  · rw [FillList_run env list src location heading state filter (Or.inl hdef) hfilter,
      if_pos hsort]
  · rw [← Visit_eq_append]
    exact SortByDistance_perm env location _
  · rw [List.pairwise_map]
    exact SortByDistance_sorted env location _

/-- Witness of the amended C3: a 50-unit distance criterion on waypoints at
distances 10, 5, 20 lists them in the order 5, 10, 20. -/
theorem FillList_sorted_when_active_witness :
    ∃ filter out,
      WaypointListDialogState.ToFilter Env.sample
        { name := [], distance_index := 2, direction_index := 0,
          type_index := TypeFilter.ALL } Angle.Zero = some filter ∧
      FillList Env.sample [] [Waypoint.sample 0 10, Waypoint.sample 1 5, Waypoint.sample 2 20]
        GeoPoint.origin Angle.Zero
        { name := [], distance_index := 2, direction_index := 0,
          type_index := TypeFilter.ALL } = some out ∧
      out = WaypointList.SortByDistance Env.sample GeoPoint.origin
        (WaypointListBuilder.Visit Env.sample filter GeoPoint.origin []
          [Waypoint.sample 0 10, Waypoint.sample 1 5, Waypoint.sample 2 20]) ∧
      out.Perm ([] ++ ([Waypoint.sample 0 10, Waypoint.sample 1 5, Waypoint.sample 2 20].filter
        (Env.sample.Matches filter GeoPoint.origin)).map WaypointListItem.mk) ∧
      List.Pairwise (fun a b : fixed => a ≤ b)
        (out.map (fun item => Env.sample.Distance GeoPoint.origin item.waypoint)) :=
  FillList_sorted_when_active Env.sample []
    [Waypoint.sample 0 10, Waypoint.sample 1 5, Waypoint.sample 2 20] GeoPoint.origin Angle.Zero
    { name := [], distance_index := 2, direction_index := 0, type_index := TypeFilter.ALL }
    (fun _ hx => Int.mul_pos hx (by decide))
    (by decide) (by decide) (by decide) (by decide) (Or.inl (by decide))

/-- C6: each query fully replaces the prior result.  `UpdateList` clears the list
and fills it by `FillLastUsedList` when the type is LAST_USED and by `FillList`
otherwise, so its outcome is the same for every prior content of `waypoint_list`;
it returns a result whenever both indices are inside their tables; and running it
again on its own result, with the same repository and last-used ids, gives that
result again, element for element. -/
theorem UpdateList_replaces_prior (env : Env) (way_points : Waypoints)
    (last_used : WaypointIDList) (g : DialogGlobals) (prior : WaypointList) :
    UpdateList env way_points last_used { g with waypoint_list := prior } =
      UpdateList env way_points last_used g ∧
    UpdateList env way_points last_used g =
      (if g.filter_data.type_index = TypeFilter.LAST_USED then
        some { g with waypoint_list := FillLastUsedList [] last_used way_points }
      else
        (FillList env [] way_points g.location g.last_heading g.filter_data).map
          (fun list => { g with waypoint_list := list })) ∧
    (0 ≤ g.filter_data.distance_index ∧ g.filter_data.distance_index ≤ 8 ∧
      0 ≤ g.filter_data.direction_index ∧ g.filter_data.direction_index ≤ 13 →
      (UpdateList env way_points last_used g).isSome = true) ∧
    (∀ g1, UpdateList env way_points last_used g = some g1 →
      UpdateList env way_points last_used g1 = some g1) := by
  refine ⟨?_, UpdateList_unfold env way_points last_used g, ?_, ?_⟩
  · rw [UpdateList_unfold, UpdateList_unfold]
  · rintro ⟨hd0, hd8, hr0, hr13⟩
    rw [UpdateList_unfold]
    split
    · rfl
    · have hsome := FillList_isSome env [] way_points g.location g.last_heading g.filter_data
        hd0 hd8 hr0 hr13
      cases hfl : FillList env [] way_points g.location g.last_heading g.filter_data with
      | none => rw [hfl] at hsome; cases hsome
      | some list => rfl
  · intro g1 h1
    rw [UpdateList_unfold] at h1
    by_cases ht : g.filter_data.type_index = TypeFilter.LAST_USED
    · rw [if_pos ht] at h1
      cases h1
      rw [UpdateList_unfold, if_pos ht]
    · rw [if_neg ht] at h1
      cases hfl : FillList env [] way_points g.location g.last_heading g.filter_data with
      | none => rw [hfl] at h1; cases h1
      | some list =>
        rw [hfl] at h1
        cases h1
        rw [UpdateList_unfold, if_neg ht]
        show Option.map _ (FillList env [] way_points g.location g.last_heading g.filter_data) = _
        rw [hfl]
        rfl

/-- Witness of C6: a 50-unit distance criterion on three waypoints, started from a
list holding a stale item; the second run returns the list of the first. -/
theorem UpdateList_replaces_prior_witness :
    UpdateList Env.sample [Waypoint.sample 0 10, Waypoint.sample 1 5, Waypoint.sample 2 20] []
        { location := GeoPoint.origin, last_heading := Angle.Zero, name_filter_index := -1,
          filter_data := { name := [], distance_index := 2, direction_index := 0,
                           type_index := TypeFilter.ALL },
          waypoint_list := [⟨Waypoint.sample 1 5⟩, ⟨Waypoint.sample 0 10⟩,
                            ⟨Waypoint.sample 2 20⟩] } =
      some { location := GeoPoint.origin, last_heading := Angle.Zero, name_filter_index := -1,
             filter_data := { name := [], distance_index := 2, direction_index := 0,
                              type_index := TypeFilter.ALL },
             waypoint_list := [⟨Waypoint.sample 1 5⟩, ⟨Waypoint.sample 0 10⟩,
                               ⟨Waypoint.sample 2 20⟩] } :=
  (UpdateList_replaces_prior Env.sample
    [Waypoint.sample 0 10, Waypoint.sample 1 5, Waypoint.sample 2 20] []
    { location := GeoPoint.origin, last_heading := Angle.Zero, name_filter_index := -1,
      filter_data := { name := [], distance_index := 2, direction_index := 0,
                       type_index := TypeFilter.ALL },
      waypoint_list := [⟨Waypoint.sample 7 7⟩] } []).2.2.2 _ (by decide)

/-- C9: for a fixed allowed-characters string of length n (n below 2^31, `size_t`
of 32 or 64 bits, the wrap-around of n-1 and n-2 included), the index
`name_filter_index` stays between -1 and n-1 under every sequence of
`OnFilterNameButtonLeft` and `OnFilterNameButtonRight` steps from -1, and whenever
it is not -1 the read `name_filter[name_filter_index]` of `NameButtonUpdateChar`
falls inside the string and yields one of its characters. -/
theorem name_filter_index_in_range (w : Nat) (name_filter : List TCHAR)
    (keys : List NameKey) (hw : w = 32 ∨ w = 64) (hlen : tcslen name_filter < 2 ^ 31) :
    -1 ≤ nameIndexRun w name_filter keys ∧
    nameIndexRun w name_filter keys ≤ (tcslen name_filter : Int) - 1 ∧
    (nameIndexRun w name_filter keys ≠ -1 →
      ∃ c, tableAt name_filter (nameIndexRun w name_filter keys) = some c ∧ c ≠ NUL ∧
        NameButtonUpdateChar.name name_filter (nameIndexRun w name_filter keys) = some [c]) := by
  have hrange := index_run_range w hw name_filter hlen keys (-1) (le_refl _) (by omega)
  refine ⟨hrange.1, hrange.2, ?_⟩
  intro hne
  unfold nameIndexRun at hne ⊢
  generalize keys.foldl (nameIndexStep w name_filter) (-1) = i at hrange hne ⊢
  have h0 : 0 ≤ i := by omega
  have hlt : i.toNat < (name_filter.takeWhile (fun c => c != NUL)).length := by
    have : i.toNat < tcslen name_filter := by omega
    exact this
  obtain ⟨c, hc, hcn⟩ := takeWhile_get _ name_filter i.toNat hlt
  have hcn2 : c ≠ NUL := by simpa using hcn
  have htab : tableAt name_filter i = some c := by
    simp only [tableAt, not_lt.mpr h0, if_false, hc]
  refine ⟨c, htab, hcn2, ?_⟩
  simp only [NameButtonUpdateChar.name, hne, if_false, htab, cstr]
  have hcn3 : (c != NUL) = true := hcn
  simp [List.takeWhile_cons, hcn3]

/-- Witness of C9: the string "ABC" and the keys Left, Left, Right, Left on a
64-bit `size_t`. -/
theorem name_filter_index_in_range_witness :
    -1 ≤ nameIndexRun 64 [65, 66, 67, 0]
        [NameKey.Left, NameKey.Left, NameKey.Right, NameKey.Left] ∧
    nameIndexRun 64 [65, 66, 67, 0]
        [NameKey.Left, NameKey.Left, NameKey.Right, NameKey.Left] ≤
      (tcslen [65, 66, 67, 0] : Int) - 1 ∧
    (nameIndexRun 64 [65, 66, 67, 0]
        [NameKey.Left, NameKey.Left, NameKey.Right, NameKey.Left] ≠ -1 →
      ∃ c, tableAt [65, 66, 67, 0] (nameIndexRun 64 [65, 66, 67, 0]
          [NameKey.Left, NameKey.Left, NameKey.Right, NameKey.Left]) = some c ∧ c ≠ NUL ∧
        NameButtonUpdateChar.name [65, 66, 67, 0] (nameIndexRun 64 [65, 66, 67, 0]
          [NameKey.Left, NameKey.Left, NameKey.Right, NameKey.Left]) = some [c]) :=
  name_filter_index_in_range 64 [65, 66, 67, 0]
    [NameKey.Left, NameKey.Left, NameKey.Right, NameKey.Left] (Or.inr rfl) (by decide)

/-- C10: the trimming loop of `OnFilterNameButton` turns the entered name into its
longest beginning that does not end in a space: the result is a beginning of the
input and does not end in a space, what was removed is a run of spaces, no longer
beginning of the input is free of a final space, a name of spaces only becomes the
empty name, and trimming the trimmed buffer changes nothing. -/
theorem trimTrailingSpaces_longest (buffer : List TCHAR) :
    cstr (trimTrailingSpaces buffer) <+: cstr buffer ∧
    (cstr (trimTrailingSpaces buffer)).getLast? ≠ some SPACE ∧
    (∃ n, cstr buffer = cstr (trimTrailingSpaces buffer) ++ List.replicate n SPACE) ∧
    (∀ p : List TCHAR, p <+: cstr buffer → p.getLast? ≠ some SPACE →
      p.length ≤ (cstr (trimTrailingSpaces buffer)).length) ∧
    ((∀ c ∈ cstr buffer, c = SPACE) → cstr (trimTrailingSpaces buffer) = []) ∧
    trimTrailingSpaces (trimTrailingSpaces buffer) = trimTrailingSpaces buffer := by
  obtain ⟨kept, n, rest1, hout, hname, hlast, hrest, hkept⟩ := trimTrailingSpaces_split buffer
  have hno : ∀ c ∈ kept, c ≠ NUL := fun c hc =>
    cstr_no_NUL buffer c (by rw [hname]; exact List.mem_append_left _ hc)
  rw [hkept]
  refine ⟨⟨List.replicate n SPACE, hname.symm⟩, hlast, ⟨n, hname⟩, ?_, ?_, ?_⟩
  · rintro p ⟨t, ht⟩ hp
    rw [hname] at ht
    rcases List.append_eq_append_iff.mp ht with ⟨a, ha, _⟩ | ⟨c, hc, hr⟩
    · rw [ha]; simp
    · by_cases hcn : c = []
      · rw [hc, hcn]; simp
      · exfalso
        rw [hc, List.getLast?_append_of_ne_nil _ hcn] at hp
        rcases last_not_space_cases c hp with h | ⟨q, x, hq, hx⟩
        · exact hcn h
        · have hmem : x ∈ List.replicate n SPACE := by
            rw [hr, hq]; simp
          exact hx (List.eq_of_mem_replicate hmem)
  · intro hall
    rcases last_not_space_cases kept hlast with h | ⟨q, x, hq, hx⟩
    · exact h
    · exfalso
      apply hx
      apply hall
      rw [hname, hq]
      simp
  · rw [hout]
    exact trimTrailingSpaces_fixed kept rest1 hno hlast hrest

/-- Witness of C10: "A B" followed by two spaces is cut to "A B", and a name of two
spaces becomes the empty name. -/
theorem trimTrailingSpaces_longest_witness :
    cstr (trimTrailingSpaces [65, 32, 66, 32, 32, 0, 32, 7]) = [65, 32, 66] ∧
    cstr (trimTrailingSpaces [32, 32, 0]) = [] :=
  ⟨by decide,
   (trimTrailingSpaces_longest [32, 32, 0]).2.2.2.2.1 (by decide)⟩

end XCSoar
